import Mathlib

/-!
Verification of the `html2xhtml` conversion engine
(`pkg/converter/{converter,context,prevalidator,errors,metrics}.go`).

The Go code is shallowly embedded: the document tree (`golang.org/x/net/html`
`Node`) becomes a nested inductive, the pattern-based pre-validator's four
regular expressions become explicit scanning functions over `List Char`,
the metrics side effects become an explicit event trace, and the delegate
HTML parser (an external collaborator per the design) is an abstract
parameter `parse : String → Node × Option GoErr`.
-/

namespace SHP

/-- Node kinds of `golang.org/x/net/html`: ErrorNode, TextNode, DocumentNode,
ElementNode, CommentNode, DoctypeNode, RawNode. -/
inductive NodeType where
  | errorNode | textNode | documentNode | elementNode | commentNode | doctypeNode | rawNode
deriving DecidableEq, Repr

/-- An attribute: `html.Attribute{Key, Val}` (the `Namespace` field is never
consulted by the converter and is omitted). -/
structure GoAttr where
  key : String
  val : String
deriving DecidableEq, Repr

/-- The source `html.Node`: a kind tag, the `Data` string (tag name for elements, text
for text nodes, comment data for comments), the attribute list, and the
children (`FirstChild`/`NextSibling` chain rendered as a list). -/
inductive Node where
  | mk (ty : NodeType) (data : String) (attr : List GoAttr) (children : List Node)
deriving Repr

def Node.ty : Node → NodeType
  | .mk t _ _ _ => t

def Node.data : Node → String
  | .mk _ d _ _ => d

def Node.attr : Node → List GoAttr
  | .mk _ _ a _ => a

def Node.children : Node → List Node
  | .mk _ _ _ cs => cs

/-- The source `ErrorCode` constants of `pkg/converter/errors.go`. -/
inductive ErrorCode where
  | parseFailed | validationFailed | conversionFailed | timeout | contextCanceled | invalidInput
deriving DecidableEq, Repr

/-- Go `error` values as the converter produces them: either a plain
`errors.New` string, or a `*converter.Error` (code, message, cause); the
absent (nil) cause is the `nilErr` constructor. -/
inductive GoErr where
  | nilErr
  | plain (msg : String)
  | structured (code : ErrorCode) (msg : String) (cause : GoErr)
deriving DecidableEq, Repr

/-- The source `NewError(code, message, cause)` of `errors.go`. -/
def NewError (code : ErrorCode) (msg : String) (cause : GoErr) : GoErr :=
  .structured code msg cause

deriving instance DecidableEq for Except

/-- The source `ChangeType` constants of `converter.go`. -/
inductive ChangeType where
  | unclosedTag | unquotedAttr | uppercaseTag | invalidNesting | missingNamespace
deriving DecidableEq, Repr

/-- The source `converter.Change`. -/
structure Change where
  type : ChangeType
  location : String
  message : String
  original : String
  fixed : String
deriving DecidableEq, Repr

/-- The source `converter.Options`. -/
structure Options where
  strictMode : Bool
  autoFix : Bool
  verbose : Bool
  preserveFormatting : Bool
  validateOnly : Bool
deriving DecidableEq, Repr

/-- The source `converter.Result` (`Success, Output, OriginalSize, FinalSize, Changes,
Errors, Warnings`); byte counts are `Nat` (the Go `int64` values are byte
lengths of in-memory strings and cannot overflow). -/
structure Result where
  success : Bool
  output : String
  originalSize : Nat
  finalSize : Nat
  changes : List Change
  errors : List GoErr
  warnings : List String
deriving DecidableEq, Repr

/-! ### Character classes and string helpers

The pre-validator's regular expressions use only ASCII character classes
(RE2 `\s` = `[\t\n\f\r ]`, `\w` = `[0-9A-Za-z_]`, and explicit ranges), so
they are embedded as predicates on `Char`. -/

def isUpperCh (c : Char) : Bool :=
  'A' ≤ c && c ≤ 'Z'

def isDigitCh (c : Char) : Bool :=
  '0' ≤ c && c ≤ '9'

/-- The class `[A-Z0-9]` (tail of the uppercase-tag pattern). -/
def isUpperDigit (c : Char) : Bool :=
  isUpperCh c || isDigitCh c

/-- The class `[A-Z0-9_-]` (tail of the uppercase-attribute pattern). -/
def isUpperAttrCh (c : Char) : Bool :=
  isUpperCh c || isDigitCh c || c = '_' || c = '-'

/-- RE2 `\s` = `[\t\n\f\r ]`. -/
def isSpaceCh (c : Char) : Bool :=
  c = ' ' || c = '\t' || c = '\n' || c = '\x0c' || c = '\r'

/-- RE2 `\w` = `[0-9A-Za-z_]`. -/
def isWordCh (c : Char) : Bool :=
  isDigitCh c || ('a' ≤ c && c ≤ 'z') || isUpperCh c || c = '_'

/-- ASCII lowercasing of one character, as `strings.ToLower` acts on the
ASCII range (the only range the inputs of interest use). -/
def lowerCh (c : Char) : Char :=
  if isUpperCh c then Char.ofNat (c.toNat + 32) else c

/-- The source `strings.ToLower`, restricted to its ASCII action. -/
def lowerStr (s : String) : String :=
  String.mk (s.data.map lowerCh)

/-- One character of `html.EscapeString` (x/net/html): `&` `'` `<` `>` `"`
are replaced by `&amp;` `&#39;` `&lt;` `&gt;` `&#34;`. -/
def escapeCh (c : Char) : String :=
  if c = '&' then "&amp;"
  else if c = '\'' then "&#39;"
  else if c = '<' then "&lt;"
  else if c = '>' then "&gt;"
  else if c = '"' then "&#34;"
  else String.mk [c]

/-- The source `html.EscapeString` of x/net/html (the serializer's escaping delegate). -/
def escapeString (s : String) : String :=
  String.join (s.data.map escapeCh)

/-- The source `isVoidElement` of `converter.go`: membership in the fixed 14-name set. -/
def isVoidElement (tag : String) : Bool :=
  tag = "area" || tag = "base" || tag = "br" || tag = "col" ||
  tag = "embed" || tag = "hr" || tag = "img" || tag = "input" ||
  tag = "link" || tag = "meta" || tag = "param" || tag = "source" ||
  tag = "track" || tag = "wbr"

/-! ### Canonical serializer: `renderXHTML` of `converter.go`

`renderXHTML` writes to a `bytes.Buffer`, whose writes cannot fail, so the
embedding is a total function to `String`.  The `opts` parameter is kept
because the source takes it (it is unused there too). -/

/-- One rendered attribute: `" " + attr.Key + "=\"" + EscapeString(attr.Val) + "\""`. -/
def renderAttr (a : GoAttr) : String :=
  " " ++ a.key ++ "=\"" ++ escapeString a.val ++ "\""

def renderAttrs (attrs : List GoAttr) : String :=
  String.join (attrs.map renderAttr)

mutual

/-- The source `renderXHTML`: Document renders children; Element renders `<name`,
attributes, then ` />` for void elements (children skipped via the early
`return nil`) or `>` children `</name>`; Text renders escaped; Comment
renders `<!--data-->` unescaped; every other node kind falls through the
`switch` and emits nothing. -/
def renderXHTML (opts : Options) : Node → String
  | .mk .documentNode _ _ cs => renderList opts cs
  | .mk .elementNode d a cs =>
      "<" ++ d ++ renderAttrs a ++
        (if isVoidElement d then " />"
         else ">" ++ renderList opts cs ++ "</" ++ d ++ ">")
  | .mk .textNode d _ _ => escapeString d
  | .mk .commentNode d _ _ => "<!--" ++ d ++ "-->"
  | .mk _ _ _ _ => ""

/-- The `for child := n.FirstChild; ...` loops of `renderXHTML`. -/
def renderList (opts : Options) : List Node → String
  | [] => ""
  | c :: cs => renderXHTML opts c ++ renderList opts cs

end

/-! ### Tree validator: `validateNode` of `converter.go` -/

/-- The attribute loop of `validateNode`: first attribute whose key is not
its own lowercase form yields the error. -/
def validateAttrs : List GoAttr → Except GoErr Unit
  | [] => .ok ()
  | a :: rest =>
      if a.key ≠ lowerStr a.key then
        .error (.plain ("attribute must be lowercase: " ++ a.key))
      else validateAttrs rest

mutual

/-- The source `validateNode`: on an element, check (1) lowercase tag, (2) void element
has no children (`FirstChild != nil`), (3) lowercase attribute keys; then
recurse into the children left to right, short-circuiting on error. -/
def validateNode : Node → Except GoErr Unit
  | .mk ty d a cs =>
      match (if ty = .elementNode then
               if d ≠ lowerStr d then
                 .error (.plain ("tag must be lowercase: " ++ d))
               else if isVoidElement d && !cs.isEmpty then
                 .error (.plain ("void element cannot have children: " ++ d))
               else validateAttrs a
             else .ok ()) with
      | .error e => .error e
      | .ok _ => validateChildren cs

/-- The child loop of `validateNode`. -/
def validateChildren : List Node → Except GoErr Unit
  | [] => .ok ()
  | c :: cs =>
      match validateNode c with
      | .error e => .error e
      | .ok _ => validateChildren cs

end

/-! ### Tree normalizer: `fixNode` of `converter.go`

`fixNode` mutates the tree in place and appends to `result.Changes`; the
embedding returns the rewritten node together with the appended changes, in
traversal order (node's own tag change first, then the children's). -/

mutual

/-- The source `fixNode`: lowercase an element's tag (recording a Change when it
differs), lowercase attribute keys silently, then recurse. -/
def fixNode : Node → Node × List Change
  | .mk ty d a cs =>
      let tagFix : String × List Change :=
        if ty = .elementNode && d ≠ lowerStr d then
          (lowerStr d, [⟨.uppercaseTag, "", "Converted tag to lowercase", d, lowerStr d⟩])
        else (d, [])
      let a' : List GoAttr :=
        if ty = .elementNode then
          a.map (fun at0 => if at0.key ≠ lowerStr at0.key then ⟨lowerStr at0.key, at0.val⟩ else at0)
        else a
      let rec0 := fixChildren cs
      (.mk ty tagFix.1 a' rec0.1, tagFix.2 ++ rec0.2)

/-- The child loop of `fixNode`. -/
def fixChildren : List Node → List Node × List Change
  | [] => ([], [])
  | c :: cs =>
      let f := fixNode c
      let fs := fixChildren cs
      (f.1 :: fs.1, f.2 ++ fs.2)

end

/-! ### Defect scanner: `PreValidator` of `prevalidator.go`

Each of the four compiled regular expressions becomes an explicit matcher.
For these particular patterns, RE2's leftmost-first greedy semantics is
deterministic: every starred/plused class is disjoint from the character the
pattern requires next, so backtracking can never produce a different match
than the maximal-munch scan implemented here.  `FindAll*` semantics
(successive non-overlapping leftmost matches) is implemented by trying each
start position left to right and resuming after a match's end. -/

/-- Successive non-overlapping leftmost matches.  `fuel` bounds the
recursion; every step consumes at least one character (a successful match is
nonempty for all four matchers), so `fuel = cs.length` loses nothing. -/
def findAllAux (matchAt : List Char → Option (α × List Char)) :
    Nat → List Char → List α
  | 0, _ => []
  | _ + 1, [] => []
  | fuel + 1, cs@(_ :: rest) =>
      match matchAt cs with
      | some (m, rest2) => m :: findAllAux matchAt fuel rest2
      | none => findAllAux matchAt fuel rest

def goFindAll (matchAt : List Char → Option (α × List Char)) (cs : List Char) : List α :=
  findAllAux matchAt cs.length cs

/-- The source `uppercaseTagRe` = `</?[A-Z][A-Z0-9]*` at one start position: on
success, the matched text and the remaining input. -/
def matchUpperTagAt : List Char → Option (List Char × List Char)
  | '<' :: '/' :: c :: rest =>
      if isUpperCh c then
        let sp := rest.span isUpperDigit
        some ('<' :: '/' :: c :: sp.1, sp.2)
      else none
  | '<' :: c :: rest =>
      if isUpperCh c then
        let sp := rest.span isUpperDigit
        some ('<' :: c :: sp.1, sp.2)
      else none
  | _ => none

/-- The source `uppercaseAttrRe` = `\s+[A-Z][A-Z0-9_-]*=` at one start position: on
success, the attribute name (the match stripped of leading whitespace and
the trailing `=`, exactly what `TrimSuffix(TrimSpace(match), "=")`
computes) and the remaining input. -/
def matchUpperAttrAt (cs : List Char) : Option (List Char × List Char) :=
  match cs with
  | [] => none
  | c :: _ =>
      if isSpaceCh c then
        let sp := cs.span isSpaceCh
        match sp.2 with
        | [] => none
        | u :: rest2 =>
            if isUpperCh u then
              let rn := rest2.span isUpperAttrCh
              match rn.2 with
              | '=' :: rest3 => some (u :: rn.1, rest3)
              | _ => none
            else none
      else none

/-- One submatch of `unquotedAttrRe` = `\s+(\w+)=([^"'][^\s>]+)`:
`full` is `match[0]`, `name` is `match[1]`, `value` is `match[2]`. -/
structure UnqMatch where
  full : List Char
  name : List Char
  value : List Char
deriving DecidableEq, Repr

/-- The source `unquotedAttrRe` at one start position.  Note the value is one
arbitrary non-quote character followed by at least one character that is
neither whitespace nor `>`, so a matched value always has length ≥ 2. -/
def matchUnquotedAt (cs : List Char) : Option (UnqMatch × List Char) :=
  match cs with
  | [] => none
  | c :: _ =>
      if isSpaceCh c then
        match (cs.span isSpaceCh).2 with
        | [] => none
        | w :: rest2 =>
            if isWordCh w then
              match (rest2.span isWordCh).2 with
              | '=' :: v1 :: rest4 =>
                  if v1 ≠ '"' && v1 ≠ '\'' then
                    if (rest4.span (fun x => !isSpaceCh x && x ≠ '>')).1.isEmpty then none
                    else
                      some (⟨(cs.span isSpaceCh).1 ++
                               (w :: (rest2.span isWordCh).1) ++
                               '=' :: v1 :: (rest4.span (fun x => !isSpaceCh x && x ≠ '>')).1,
                             w :: (rest2.span isWordCh).1,
                             v1 :: (rest4.span (fun x => !isSpaceCh x && x ≠ '>')).1⟩,
                            (rest4.span (fun x => !isSpaceCh x && x ≠ '>')).2)
                  else none
              | _ => none
            else none
      else none

/-- The alternation `(br|img|input|meta|link|hr|area|base|col|embed|param|source|track|wbr)`
in source order.  No listed name is a prefix of another, so at most one
alternative can match a given position and committing to the first is
faithful to the backtracking search. -/
def voidTagsAlt : List (List Char) :=
  [String.data "br", String.data "img", String.data "input", String.data "meta",
   String.data "link", String.data "hr", String.data "area", String.data "base",
   String.data "col", String.data "embed", String.data "param", String.data "source",
   String.data "track", String.data "wbr"]

def findVoidAlt : List (List Char) → List Char → Option (List Char × List Char)
  | [], _ => none
  | t :: ts, rest =>
      if t.isPrefixOf rest then some (t, rest.drop t.length) else findVoidAlt ts rest

/-- The source `unclosedVoidRe` = `<(tags)(\s[^/>]*|)>` at one start position: on
success, the captured tag name (`match[1]`) and the remaining input. -/
def matchUnclosedVoidAt (cs : List Char) : Option (List Char × List Char) :=
  match cs with
  | '<' :: rest =>
      match findVoidAlt voidTagsAlt rest with
      | some (t, rest2) =>
          match rest2 with
          | [] => none
          | c :: rest3 =>
              if isSpaceCh c then
                let sp := rest3.span (fun x => x ≠ '/' && x ≠ '>')
                match sp.2 with
                | '>' :: rest4 => some (t, rest4)
                | _ => none
              else if c = '>' then some (t, rest3) else none
      | none => none
  | _ => none

/-- The `seen` map of each scan block: keep the first occurrence of each
key, drop later duplicates. -/
def dedupByAux [DecidableEq β] (key : α → β) (seen : List β) : List α → List α
  | [] => []
  | x :: xs =>
      if key x ∈ seen then dedupByAux key seen xs
      else x :: dedupByAux key (key x :: seen) xs

def dedupBy [DecidableEq β] (key : α → β) (l : List α) : List α :=
  dedupByAux key [] l

/-- The source `IssueType` constants of `prevalidator.go`. -/
inductive IssueType where
  | uppercaseTag | uppercaseAttr | unquotedAttr | unclosedVoid | invalidNesting
deriving DecidableEq, Repr

/-- The source `converter.ValidationIssue` (Line/Column are left 0 by `Validate`). -/
structure ValidationIssue where
  type : IssueType
  line : Nat
  column : Nat
  message : String
  original : String
  fixed : String
deriving DecidableEq, Repr

/-- The source `TrimPrefix(TrimPrefix(match, "</"), "<")` applied to an
`uppercaseTagRe` match. -/
def trimTagAngle : List Char → List Char
  | '<' :: '/' :: r => r
  | '<' :: r => r
  | r => r

/-- Pattern class 1 of `PreValidator.Validate`: uppercase tags,
deduplicated by tag name. -/
def tagIssues (cs : List Char) : List ValidationIssue :=
  (dedupBy id ((goFindAll matchUpperTagAt cs).map trimTagAngle)).map fun tn =>
    ⟨.uppercaseTag, 0, 0, "Tag must be lowercase", String.mk tn, lowerStr (String.mk tn)⟩

/-- Pattern class 2: uppercase attribute names, deduplicated by name. -/
def attrIssues (cs : List Char) : List ValidationIssue :=
  (dedupBy id (goFindAll matchUpperAttrAt cs)).map fun an =>
    ⟨.uppercaseAttr, 0, 0, "Attribute must be lowercase", String.mk an, lowerStr (String.mk an)⟩

/-- Pattern class 3: unquoted attribute values, deduplicated by the full
matched text (`match[0]`). -/
def unquotedIssues (cs : List Char) : List ValidationIssue :=
  (dedupBy UnqMatch.full (goFindAll matchUnquotedAt cs)).map fun m =>
    ⟨.unquotedAttr, 0, 0, "Attribute value must be quoted", String.mk m.full,
      String.mk m.name ++ "=\"" ++ String.mk m.value ++ "\""⟩

/-- Pattern class 4: unclosed void elements, deduplicated by tag name. -/
def voidIssues (cs : List Char) : List ValidationIssue :=
  (dedupBy id (goFindAll matchUnclosedVoidAt cs)).map fun t =>
    ⟨.unclosedVoid, 0, 0, "Void element must be self-closing",
      "<" ++ String.mk t ++ ">", "<" ++ String.mk t ++ " />"⟩

/-- The source `PreValidator.Validate`: the four pattern classes scanned in source
order, their deduplicated issues concatenated in that order. -/
def preValidate (input : String) : List ValidationIssue :=
  tagIssues input.data ++ attrIssues input.data ++
    unquotedIssues input.data ++ voidIssues input.data


/-! ### Metrics as an event trace

The `Metrics` interface calls made during one conversion are recorded as an
explicit trace of events, in call order. -/

inductive MetricEvent where
  | conversion (dur inSize outSize : Nat)
  | error (code : ErrorCode)
  | change (ty : ChangeType)
deriving DecidableEq, Repr

def countConvEvents (t : List MetricEvent) : Nat :=
  (t.filter fun e => match e with | .conversion _ _ _ => true | _ => false).length

def countErrorEvents (t : List MetricEvent) : Nat :=
  (t.filter fun e => match e with | .error _ => true | _ => false).length

def countChangeEvents (t : List MetricEvent) : Nat :=
  (t.filter fun e => match e with | .change _ => true | _ => false).length

/-! ### The orchestrator: `Convert` of `converter.go`

The delegate HTML parser is abstract: `parse input` returns the (possibly
partial) tree together with an optional error, exactly the `(doc, err)` pair
of `html.Parse`.  The `renderXHTML` failure branch (`ErrConversionFailed`)
is unreachable because the sink is a `bytes.Buffer`, whose writes cannot
fail, so it does not appear in the embedding. -/

/-- The `switch issue.Type` of Convert's auto-fix block; the initializer
`changeType := ChangeUnclosedTag` is the fall-through for kinds the switch
does not list. -/
def issueChangeType : IssueType → ChangeType
  | .uppercaseTag => .uppercaseTag
  | .uppercaseAttr => .unquotedAttr
  | .unquotedAttr => .unquotedAttr
  | .unclosedVoid => .unclosedTag
  | .invalidNesting => .unclosedTag

def issueToChange (i : ValidationIssue) : Change :=
  ⟨issueChangeType i.type, "", i.message, i.original, i.fixed⟩

/-- The Changes seeded from the text scan (`if opts.AutoFix { ... }`). -/
def scanChanges (opts : Options) (issues : List ValidationIssue) : List Change :=
  if opts.autoFix then issues.map issueToChange else []

/-- Steps 3 and 4 of `Convert`: structural validation (skipped under
AutoFix), then serialization and result assembly. -/
def convertSteps34 (doc : Node) (input : String) (opts : Options) (changes0 : List Change)
    (errors0 : List GoErr) (trace0 : List MetricEvent) :
    Except GoErr Result × List MetricEvent :=
  let finish : List MetricEvent → Except GoErr Result × List MetricEvent := fun tr =>
    let output := renderXHTML opts doc
    (.ok ⟨errors0.isEmpty, output, input.utf8ByteSize, output.utf8ByteSize, changes0, errors0, []⟩,
      tr ++ changes0.map fun c => .change c.type)
  if opts.autoFix then finish trace0
  else
    match validateNode doc with
    | .error verr =>
        if opts.strictMode then
          (.error (NewError .validationFailed "validation failed" verr),
            trace0 ++ [.error .validationFailed])
        else finish (trace0 ++ [.error .validationFailed])
    | .ok _ => finish trace0

/-- Step 2 of `Convert`: the delegate parse, with strict-mode abort or
lenient recording of the parse error. -/
def convertRest (parse : String → Node × Option GoErr) (input : String) (opts : Options)
    (changes0 : List Change) : Except GoErr Result × List MetricEvent :=
  match (parse input).2 with
  | some e =>
      if opts.strictMode then
        (.error (NewError .parseFailed "failed to parse HTML" e), [.error .parseFailed])
      else convertSteps34 (parse input).1 input opts changes0 [e] [.error .parseFailed]
  | none => convertSteps34 (parse input).1 input opts changes0 [] []

/-- The source `DefaultConverter.Convert`: pre-validation (fatal in strict mode, seed
Changes under AutoFix), then parse, validate, serialize. -/
def convert (parse : String → Node × Option GoErr) (input : String) (opts : Options) :
    Except GoErr Result × List MetricEvent :=
  match opts.strictMode, preValidate input with
  | true, i :: _ =>
      (.error (NewError .validationFailed (i.message ++ ": " ++ i.original) .nilErr), [])
  | _, issues => convertRest parse input opts (scanChanges opts issues)

/-! ### `ConvertWithContext` of `context.go`

The cooperative cancellation signal is a predicate on poll sites, numbered
in execution order: 0 = the select at entry, 1 = the select after parsing,
2 = the poll at the head of `validateNodeWithContext`/`fixNodeWithContext`,
3 = the select after the validate/fix phase.  `cause` distinguishes an
explicitly-triggered signal from a time-based one; `ctx.Err()` renders it. -/

inductive CtxCause where
  | canceled | deadlineExceeded
deriving DecidableEq, Repr

def CtxCause.errString : CtxCause → String
  | .canceled => "context canceled"
  | .deadlineExceeded => "context deadline exceeded"

structure Ctx where
  done : Nat → Bool
  cause : CtxCause

def ctxErr (ctx : Ctx) : GoErr := .plain ctx.cause.errString

/-- The source `validateNodeWithContext`: one cancellation poll, then `validateNode`. -/
def validateNodeWithContext (ctx : Ctx) (n : Node) : Except GoErr Unit :=
  if ctx.done 2 then
    .error (NewError .contextCanceled "context canceled during validation" (ctxErr ctx))
  else validateNode n

/-- The source `fixNodeWithContext`: one cancellation poll, then `fixNode`. -/
def fixNodeWithContext (ctx : Ctx) (n : Node) : Except GoErr (Node × List Change) :=
  if ctx.done 2 then
    .error (NewError .contextCanceled "context canceled during fix" (ctxErr ctx))
  else .ok (fixNode n)

/-- The tail of `ConvertWithContext` after the validate/fix phase: the third
checkpoint select, serialization, result assembly, and metrics. -/
def cwcAfterVF (ctx : Ctx) (doc : Node) (input : String) (opts : Options) (dur : Nat)
    (changes : List Change) (errors0 : List GoErr) (trace0 : List MetricEvent) :
    Except GoErr Result × List MetricEvent :=
  if ctx.done 3 then
    (.error (NewError .contextCanceled "context canceled after validation" (ctxErr ctx)),
      trace0 ++ [.error .contextCanceled])
  else
    let output := renderXHTML opts doc
    (.ok ⟨errors0.isEmpty, output, input.utf8ByteSize, output.utf8ByteSize, changes, errors0, []⟩,
      trace0 ++ [.conversion dur input.utf8ByteSize output.utf8ByteSize]
        ++ changes.map fun c => .change c.type)

/-- The source `ConvertWithContext` after a successful first checkpoint: parse, second
checkpoint, validate-or-fix, then `cwcAfterVF`.  Note there is no
pre-validation scan anywhere on this path. -/
def cwcAfterStart (ctx : Ctx) (doc : Node) (perr : Option GoErr) (input : String)
    (opts : Options) (dur : Nat) : Except GoErr Result × List MetricEvent :=
  let cont : List GoErr → List MetricEvent → Except GoErr Result × List MetricEvent :=
    fun errors0 trace0 =>
      if ctx.done 1 then
        (.error (NewError .contextCanceled "context canceled after parsing" (ctxErr ctx)),
          trace0 ++ [.error .contextCanceled])
      else if opts.autoFix then
        match fixNodeWithContext ctx doc with
        | .error e => (.error e, trace0 ++ [.error .conversionFailed])
        | .ok fixed => cwcAfterVF ctx fixed.1 input opts dur fixed.2 errors0 trace0
      else
        match validateNodeWithContext ctx doc with
        | .error verr =>
            if opts.strictMode then
              (.error (NewError .validationFailed "validation failed" verr),
                trace0 ++ [.error .validationFailed])
            else cwcAfterVF ctx doc input opts dur [] errors0 (trace0 ++ [.error .validationFailed])
        | .ok _ => cwcAfterVF ctx doc input opts dur [] errors0 trace0
  match perr with
  | some e =>
      if opts.strictMode then
        (.error (NewError .parseFailed "failed to parse HTML" e), [.error .parseFailed])
      else cont [e] [.error .parseFailed]
  | none => cont [] []

/-- The source `DefaultConverter.ConvertWithContext`; `dur` is the wall-clock duration
`time.Since(startTime)` that `RecordConversion` receives, an input of the
model since real time is outside it. -/
def convertWithContext (ctx : Ctx) (parse : String → Node × Option GoErr) (input : String)
    (opts : Options) (dur : Nat) : Except GoErr Result × List MetricEvent :=
  if ctx.done 0 then
    (.error (NewError .contextCanceled "context canceled" (ctxErr ctx)),
      [.error .contextCanceled])
  else
    cwcAfterStart ctx (parse input).1 (parse input).2 input opts dur

/-! ### `DefaultMetrics` of `metrics.go`

The shared collector, modelled as a state machine over the recording
operations.  All counters are Go `int64` fields updated by
`atomic.AddInt64`, which wraps modulo 2^64; counters are kept as their
unsigned representatives modulo 2^64. -/

def wrap64 (n : Nat) : Nat := n % 2 ^ 64

structure MetricsState where
  totalConversions : Nat
  successfulConversions : Nat
  failedConversions : Nat
  totalDuration : Nat
  totalBytesProcessed : Nat
  totalBytesOutput : Nat
  changesApplied : ChangeType → Nat
  errorsByType : ErrorCode → Nat

def initMetrics : MetricsState :=
  ⟨0, 0, 0, 0, 0, 0, fun _ => 0, fun _ => 0⟩

inductive MetricsOp where
  | recordConversion (dur inSize outSize : Nat)
  | recordError (code : ErrorCode)
  | recordChange (ty : ChangeType)
  | reset

/-- One recording operation of `DefaultMetrics`. -/
def applyOp (st : MetricsState) : MetricsOp → MetricsState
  | .recordConversion dur inS outS =>
      { st with
        totalConversions := wrap64 (st.totalConversions + 1)
        successfulConversions := wrap64 (st.successfulConversions + 1)
        totalDuration := wrap64 (st.totalDuration + dur)
        totalBytesProcessed := wrap64 (st.totalBytesProcessed + inS)
        totalBytesOutput := wrap64 (st.totalBytesOutput + outS) }
  | .recordError c =>
      { st with
        totalConversions := wrap64 (st.totalConversions + 1)
        failedConversions := wrap64 (st.failedConversions + 1)
        errorsByType := fun x => if x = c then wrap64 (st.errorsByType x + 1) else st.errorsByType x }
  | .recordChange t =>
      { st with
        changesApplied := fun x => if x = t then wrap64 (st.changesApplied x + 1) else st.changesApplied x }
  | .reset => initMetrics

def applyOps (ops : List MetricsOp) : MetricsState :=
  ops.foldl applyOp initMetrics

/-- The source `ConversionStats` as `GetStats` fills it (a point-in-time copy). -/
structure ConversionStats where
  totalConversions : Nat
  successfulConversions : Nat
  failedConversions : Nat
  averageDuration : Nat
  totalBytesProcessed : Nat
  totalBytesOutput : Nat
  changesApplied : ChangeType → Nat
  errorsByType : ErrorCode → Nat

/-- The source `DefaultMetrics.GetStats` (the advisory average is Go's
`totalDuration / total` when total is positive, else zero). -/
def getStats (st : MetricsState) : ConversionStats :=
  ⟨st.totalConversions, st.successfulConversions, st.failedConversions,
    (if 0 < st.totalConversions then st.totalDuration / st.totalConversions else 0),
    st.totalBytesProcessed, st.totalBytesOutput, st.changesApplied, st.errorsByType⟩

/-! ### Specification-side tree-validator definitions

These follow the words of the specification of the Tree Validator ("return
success or a single validation error for the first violation found in a
fixed depth-first, document-order traversal", rules (1) tag lowercase,
(2) void element childless, (3) attributes lowercase), to be compared with
`validateNode` as embedded from the source. -/

/-- Rule (3): the first attribute whose name differs from its lowercase
form, as an error. -/
def specFirstAttrViolation : List GoAttr → Option GoErr
  | [] => none
  | a :: rest =>
      if a.key ≠ lowerStr a.key then
        some (.plain ("attribute must be lowercase: " ++ a.key))
      else specFirstAttrViolation rest

/-- Does one element satisfy the three rules? (Non-elements always do.) -/
def specElemOK (ty : NodeType) (d : String) (a : List GoAttr) (cs : List Node) : Bool :=
  if ty = .elementNode then
    d == lowerStr d && (!(isVoidElement d) || cs.isEmpty) &&
      a.all fun at0 => at0.key == lowerStr at0.key
  else true

mutual

/-- Every node of the subtree satisfies the three rules. -/
def specNodeOK : Node → Bool
  | .mk ty d a cs => specElemOK ty d a cs && specChildrenOK cs

def specChildrenOK : List Node → Bool
  | [] => true
  | c :: cs => specNodeOK c && specChildrenOK cs

end

mutual

/-- The first violation in a depth-first, document-order traversal, each
element checked in the order (1) tag casing, (2) void-element children,
(3) attribute casing, parent before children. -/
def specFirstViolation : Node → Option GoErr
  | .mk ty d a cs =>
      match (if ty = .elementNode then
               if d ≠ lowerStr d then
                 some (.plain ("tag must be lowercase: " ++ d))
               else if isVoidElement d && !cs.isEmpty then
                 some (.plain ("void element cannot have children: " ++ d))
               else specFirstAttrViolation a
             else none) with
      | some e => some e
      | none => specFirstViolationList cs

def specFirstViolationList : List Node → Option GoErr
  | [] => none
  | c :: cs =>
      match specFirstViolation c with
      | some e => some e
      | none => specFirstViolationList cs

end

/-! ### Concrete fixtures for witnesses and counterexamples -/

/-- A delegate parser that always returns an empty document and no error
(the delegate is an external collaborator; claims quantified over `parse`
may be instantiated at any delegate). -/
def parse0 : String → Node × Option GoErr :=
  fun _ => (⟨.documentNode, "", [], []⟩, none)

def optsDefault : Options := ⟨false, false, false, false, false⟩

def optsStrict : Options := ⟨true, false, false, false, false⟩

def optsFix : Options := ⟨false, true, false, false, false⟩

/-- A cancellation signal that is never triggered. -/
def ctxNever : Ctx := ⟨fun _ => false, .canceled⟩

/-- A time-based signal that has already expired before the call. -/
def ctxDeadlineAll : Ctx := ⟨fun _ => true, .deadlineExceeded⟩

/-- An explicitly-triggered signal first observed at poll site `k`. -/
def ctxAt (k : Nat) : Ctx := ⟨fun i => decide (k ≤ i), .canceled⟩

/-! ## Theorems -/

/-! ### Metrics invariant (C8) -/

theorem applyOp_preserves_total (st : MetricsState) (op : MetricsOp)
    (h : st.totalConversions = wrap64 (st.successfulConversions + st.failedConversions)) :
    (applyOp st op).totalConversions =
      wrap64 ((applyOp st op).successfulConversions + (applyOp st op).failedConversions) := by
  cases op <;> simp [applyOp, initMetrics, wrap64] at h ⊢ <;> omega

theorem foldl_preserves_total (ops : List MetricsOp) (st : MetricsState)
    (h : st.totalConversions = wrap64 (st.successfulConversions + st.failedConversions)) :
    (ops.foldl applyOp st).totalConversions =
      wrap64 ((ops.foldl applyOp st).successfulConversions +
        (ops.foldl applyOp st).failedConversions) := by
  induction ops generalizing st with
  | nil => exact h
  | cons op rest ih => exact ih (applyOp st op) (applyOp_preserves_total st op h)

/-- C8: for every sequence of recording operations applied from the initial
state, the snapshot returned by the stats operation satisfies total
conversions = successful + failed (as wrapping 64-bit counters, the
equality Go's `==` would observe). -/
theorem metrics_total_eq_success_plus_failed (ops : List MetricsOp) :
    (getStats (applyOps ops)).totalConversions =
      wrap64 ((getStats (applyOps ops)).successfulConversions +
        (getStats (applyOps ops)).failedConversions) := by
  have h0 : initMetrics.totalConversions =
      wrap64 (initMetrics.successfulConversions + initMetrics.failedConversions) := by
    simp [initMetrics, wrap64]
  simpa [getStats, applyOps] using foldl_preserves_total ops initMetrics h0

/-! ### Canonical serializer shape (C4) and skipped node kinds (C9) -/

/-- C4: the serializer renders Document as the concatenation of its rendered
children; Element as `<name`, each attribute in original order as
` name="escaped-value"`, then ` />` for void elements (no children
rendered) or `>` children `</name>`; Text entity-escaped; Comment as
`<!--data-->` unescaped; and the escaping maps `&` `<` `>` to entities. -/
theorem renderXHTML_shape (opts : Options) (d : String) (a : List GoAttr) (cs : List Node) :
    renderXHTML opts (.mk .documentNode d a cs) = renderList opts cs ∧
    (isVoidElement d = true →
      renderXHTML opts (.mk .elementNode d a cs) = "<" ++ d ++ renderAttrs a ++ " />") ∧
    (isVoidElement d = false →
      renderXHTML opts (.mk .elementNode d a cs) =
        "<" ++ d ++ renderAttrs a ++ ">" ++ renderList opts cs ++ "</" ++ d ++ ">") ∧
    renderAttrs a =
      String.join (a.map fun at0 => " " ++ at0.key ++ "=\"" ++ escapeString at0.val ++ "\"") ∧
    renderXHTML opts (.mk .textNode d a cs) = escapeString d ∧
    renderXHTML opts (.mk .commentNode d a cs) = "<!--" ++ d ++ "-->" ∧
    escapeCh '&' = "&amp;" ∧ escapeCh '<' = "&lt;" ∧ escapeCh '>' = "&gt;" := by
  refine ⟨rfl, fun hv => ?_, fun hv => ?_, ?_, rfl, rfl, rfl, rfl, rfl⟩
  · simp [renderXHTML, hv]
  · simp [renderXHTML, hv, String.append_assoc]
  · have hfn : renderAttr = fun at0 : GoAttr =>
        " " ++ at0.key ++ "=\"" ++ escapeString at0.val ++ "\"" :=
      funext fun at0 => rfl
    rw [renderAttrs, hfn]

theorem renderXHTML_shape_witness :
    renderXHTML optsDefault (.mk .elementNode "br" [⟨"a", "b"⟩] []) = "<br a=\"b\" />" ∧
    renderXHTML optsDefault (.mk .elementNode "p" [] [.mk .textNode "x&y" [] []]) =
      "<p>x&amp;y</p>" := by
  constructor
  · rw [(renderXHTML_shape optsDefault "br" [⟨"a", "b"⟩] []).2.1 (by decide)]
    decide
  · rw [(renderXHTML_shape optsDefault "p" []
      [.mk .textNode "x&y" [] []]).2.2.1 (by decide)]
    decide

/-- Every `Result` returned by `Convert` has `Success = (Errors empty)` and
its output is the serialization of the parsed tree. -/
theorem convert_ok_fields (parse : String → Node × Option GoErr) (input : String)
    (opts : Options) (r : Result) (h : (convert parse input opts).1 = .ok r) :
    r.success = r.errors.isEmpty ∧ r.output = renderXHTML opts (parse input).1 := by
  rcases hs : opts.strictMode <;> rcases hp : preValidate input with _ | ⟨i, rest⟩ <;>
    simp [convert, hs, hp] at h <;>
    rcases hpe : (parse input).2 with _ | e <;>
      simp [convertRest, convertSteps34, hpe, hs] at h <;>
      (try (rcases hv : validateNode (parse input).1 with e' | u <;> simp only [hv] at h)) <;>
      (try split at h) <;>
      (try simp at h) <;> (try subst h) <;> simp_all

/-- Every `Result` returned by `ConvertWithContext` has
`Success = (Errors empty)`. -/
theorem cwc_ok_fields (ctx : Ctx) (parse : String → Node × Option GoErr) (input : String)
    (opts : Options) (dur : Nat) (r : Result)
    (h : (convertWithContext ctx parse input opts dur).1 = .ok r) :
    r.success = r.errors.isEmpty := by
  rcases hs : opts.strictMode <;> rcases ha : opts.autoFix <;>
    rcases h0 : ctx.done 0 <;> (try simp [convertWithContext, h0] at h) <;>
    rcases hpe : (parse input).2 with _ | e <;>
      (try simp [cwcAfterStart, hpe, hs, ha] at h) <;>
      rcases h1 : ctx.done 1 <;> (try simp [h1] at h) <;>
      (try simp [validateNodeWithContext, fixNodeWithContext] at h) <;>
      rcases h2 : ctx.done 2 <;> (try simp [h2] at h) <;>
      (try (rcases hv : validateNode (parse input).1 with e' | u <;> (try simp only [hv] at h))) <;>
      (try simp [cwcAfterVF] at h) <;>
      rcases h3 : ctx.done 3 <;> (try simp [h3] at h) <;>
      (try subst h) <;> simp_all

/-- C6: a `Result` produced by `Convert` or `ConvertWithContext` has
`Success` true iff the recovered-errors list is empty; fatal conditions
return through the error side of the sum, so a caller receives a `Result`
or a structured error, never both and never neither. -/
theorem convert_success_iff_no_errors (ctx : Ctx) (parse : String → Node × Option GoErr)
    (input : String) (opts : Options) (dur : Nat) (r : Result) :
    ((convert parse input opts).1 = .ok r → (r.success = true ↔ r.errors = [])) ∧
    ((convertWithContext ctx parse input opts dur).1 = .ok r →
      (r.success = true ↔ r.errors = [])) := by
  constructor <;> intro h
  · have hf := (convert_ok_fields parse input opts r h).1
    simp [hf]
  · have hf := cwc_ok_fields ctx parse input opts dur r h
    simp [hf]

theorem convert_success_iff_no_errors_witness :
    ((⟨true, "", 0, 0, [], [], []⟩ : Result).success = true ↔
      (⟨true, "", 0, 0, [], [], []⟩ : Result).errors = []) :=
  (convert_success_iff_no_errors ctxNever parse0 "" optsDefault 0
    ⟨true, "", 0, 0, [], [], []⟩).1 rfl

/-- C9: the serializer emits bytes only for Document, Element, Text and
Comment nodes; every other kind — a doctype node in particular —
contributes the empty string, and `Convert`'s output is exactly the
serialization of the parsed tree, so a doctype node of the parsed tree
contributes nothing to the output. -/
theorem renderXHTML_other_kinds_empty (parse : String → Node × Option GoErr) (input : String)
    (opts : Options) (ty : NodeType) (d : String) (a : List GoAttr) (cs : List Node)
    (r : Result) :
    (ty ≠ .documentNode → ty ≠ .elementNode → ty ≠ .textNode → ty ≠ .commentNode →
      renderXHTML opts (.mk ty d a cs) = "") ∧
    renderXHTML opts (.mk .doctypeNode d a cs) = "" ∧
    ((convert parse input opts).1 = .ok r → r.output = renderXHTML opts (parse input).1) := by
  refine ⟨fun h1 h2 h3 h4 => ?_, rfl, fun h => (convert_ok_fields parse input opts r h).2⟩
  cases ty with
  | errorNode => rfl
  | textNode => exact absurd rfl h3
  | documentNode => exact absurd rfl h1
  | elementNode => exact absurd rfl h2
  | commentNode => exact absurd rfl h4
  | doctypeNode => rfl
  | rawNode => rfl

theorem renderXHTML_other_kinds_empty_witness :
    renderXHTML optsDefault (.mk .rawNode "<!DOCTYPE html>" [] []) = "" ∧
    renderXHTML optsDefault (.mk .doctypeNode "html" [] []) = "" ∧
    (⟨true, "", 0, 0, [], [], []⟩ : Result).output =
      renderXHTML optsDefault (parse0 "").1 := by
  refine ⟨?_, ?_, ?_⟩
  · exact (renderXHTML_other_kinds_empty parse0 "" optsDefault .rawNode "<!DOCTYPE html>" [] []
      ⟨true, "", 0, 0, [], [], []⟩).1 (by decide) (by decide) (by decide) (by decide)
  · exact (renderXHTML_other_kinds_empty parse0 "" optsDefault .doctypeNode "html" [] []
      ⟨true, "", 0, 0, [], [], []⟩).2.1
  · exact (renderXHTML_other_kinds_empty parse0 "" optsDefault .doctypeNode "html" [] []
      ⟨true, "", 0, 0, [], [], []⟩).2.2 rfl

/-! ### Strict-mode pre-validation fatality (C1) -/

theorem dedupBy_ne_nil [DecidableEq β] (key : α → β) (l : List α) (h : l ≠ [])
    (hc : dedupBy key l = []) : False := by
  cases l with
  | nil => exact h rfl
  | cons x xs => simp [dedupBy, dedupByAux] at hc

/-- C1: `Convert` with strictMode aborts with a validation-failed error
built from the head of the issue list whenever the pre-validation scan
finds anything; the issue list is the concatenation of the four pattern
classes in scan order (uppercase-tag, uppercase-attribute,
unquoted-attribute, unclosed-void), and a match in any class makes it
nonempty. -/
theorem convert_strict_scan_fatal (parse : String → Node × Option GoErr) (input : String)
    (opts : Options) (i : ValidationIssue) (rest : List ValidationIssue) :
    (preValidate input =
      tagIssues input.data ++ attrIssues input.data ++
        unquotedIssues input.data ++ voidIssues input.data) ∧
    ((goFindAll matchUpperTagAt input.data ≠ [] ∨ goFindAll matchUpperAttrAt input.data ≠ [] ∨
      goFindAll matchUnquotedAt input.data ≠ [] ∨ goFindAll matchUnclosedVoidAt input.data ≠ []) →
      preValidate input ≠ []) ∧
    (opts.strictMode = true → preValidate input = i :: rest →
      convert parse input opts =
        (.error (NewError .validationFailed (i.message ++ ": " ++ i.original) .nilErr), [])) := by
  refine ⟨rfl, fun hm hc => ?_, fun hs hp => ?_⟩
  · rw [preValidate] at hc
    simp only [List.append_eq_nil] at hc
    obtain ⟨⟨⟨hA, hB⟩, hC⟩, hD⟩ := hc
    rcases hm with h | h | h | h
    · exact dedupBy_ne_nil id ((goFindAll matchUpperTagAt input.data).map trimTagAngle)
        (by simpa [List.map_eq_nil_iff] using h) (by simpa [tagIssues, List.map_eq_nil_iff] using hA)
    · exact dedupBy_ne_nil id (goFindAll matchUpperAttrAt input.data) h
        (by simpa [attrIssues, List.map_eq_nil_iff] using hB)
    · exact dedupBy_ne_nil UnqMatch.full (goFindAll matchUnquotedAt input.data) h
        (by simpa [unquotedIssues, List.map_eq_nil_iff] using hC)
    · exact dedupBy_ne_nil id (goFindAll matchUnclosedVoidAt input.data) h
        (by simpa [voidIssues, List.map_eq_nil_iff] using hD)
  · simp [convert, hs, hp]

theorem convert_strict_scan_fatal_witness :
    optsStrict.strictMode = true ∧
    preValidate "<BR>" = [⟨.uppercaseTag, 0, 0, "Tag must be lowercase", "BR", "br"⟩] ∧
    convert parse0 "<BR>" optsStrict =
      (.error (NewError .validationFailed "Tag must be lowercase: BR" .nilErr), []) := by
  refine ⟨rfl, by decide, ?_⟩
  have h := (convert_strict_scan_fatal parse0 "<BR>" optsStrict
      ⟨.uppercaseTag, 0, 0, "Tag must be lowercase", "BR", "br"⟩ []).2.2 rfl (by decide)
  exact h.trans (by decide)

/-! ### Unquoted-attribute values are at least two characters (C10) -/

theorem matchUnquotedAt_value_len (cs : List Char) (m : UnqMatch) (rest2 : List Char)
    (h : matchUnquotedAt cs = some (m, rest2)) : 2 ≤ m.value.length := by
  unfold matchUnquotedAt at h
  repeat' split at h
  all_goals try exact Option.noConfusion h
  injection h with h1
  injection h1 with ha hb
  subst ha
  rename_i hvr
  simp only [List.isEmpty_iff] at hvr
  have hlen := List.length_pos.mpr hvr
  simp only [List.length_cons]
  omega

theorem findAllAux_unq_value_len (fuel : Nat) : ∀ (cs : List Char) (m : UnqMatch),
    m ∈ findAllAux matchUnquotedAt fuel cs → 2 ≤ m.value.length := by
  induction fuel with
  | zero =>
      intro cs m h
      simp [findAllAux] at h
  | succ n ih =>
      intro cs m h
      cases cs with
      | nil => simp [findAllAux] at h
      | cons c rest =>
          rcases hm : matchUnquotedAt (c :: rest) with _ | ⟨m', rest2⟩ <;>
            simp only [findAllAux, hm, List.mem_cons] at h
          · exact ih rest m h
          · rcases h with h | h
            · exact h ▸ matchUnquotedAt_value_len (c :: rest) m' rest2 hm
            · exact ih rest2 m h

/-- C10: the unquoted-attribute pattern only matches values of length ≥ 2,
so an input whose only defect is a one-character unquoted value (here
`<div width=5></div>`) yields no issue at all: strict-mode `Convert` does
not reject it at the scan gate and auto-fix seeds no Change from the scan
(`convert` falls through to the post-scan pipeline with an empty Change
list). -/
theorem unquoted_value_min_len :
    (∀ (input : String) (m : UnqMatch), m ∈ goFindAll matchUnquotedAt input.data →
      2 ≤ m.value.length) ∧
    preValidate "<div width=5></div>" = [] ∧
    (∀ (parse : String → Node × Option GoErr) (opts : Options),
      convert parse "<div width=5></div>" opts =
        convertRest parse "<div width=5></div>" opts []) := by
  refine ⟨fun input m h => findAllAux_unq_value_len _ _ m h, by decide, fun parse opts => ?_⟩
  have hp : preValidate "<div width=5></div>" = [] := by decide
  rcases hs : opts.strictMode <;> simp [convert, hs, hp, scanChanges]

theorem unquoted_value_min_len_witness :
    2 ≤ (UnqMatch.mk (String.data " a=bc") (String.data "a") (String.data "bc")).value.length :=
  unquoted_value_min_len.1 " a=bc"
    ⟨String.data " a=bc", String.data "a", String.data "bc"⟩ (by decide)

/-! ### Tree validator against its specification (C5) -/

theorem validateAttrs_eq_spec (a : List GoAttr) :
    validateAttrs a = (match specFirstAttrViolation a with
                       | none => Except.ok ()
                       | some e => Except.error e) := by
  induction a with
  | nil => rfl
  | cons x xs ih =>
      by_cases hx : x.key ≠ lowerStr x.key
      · simp only [validateAttrs, specFirstAttrViolation, if_pos hx]
      · simp only [validateAttrs, specFirstAttrViolation, if_neg hx]
        exact ih

mutual

theorem validateNode_eq_spec : ∀ n : Node,
    validateNode n = (match specFirstViolation n with
                      | none => Except.ok ()
                      | some e => Except.error e)
  | .mk ty d a cs => by
      have hC := validateChildren_eq_spec cs
      rw [validateNode, specFirstViolation]
      by_cases hty : ty = NodeType.elementNode
      · simp only [if_pos hty]
        by_cases hd : d ≠ lowerStr d
        · simp [hd]
        · simp only [if_neg hd]
          rcases hvc : (isVoidElement d && !cs.isEmpty) with _ | _
          · simp only [Bool.false_eq_true, if_false]
            rw [validateAttrs_eq_spec a]
            rcases hfa : specFirstAttrViolation a with _ | e
            · exact hC
            · rfl
          · simp [hvc]
      · simp only [if_neg hty]
        exact hC

theorem validateChildren_eq_spec : ∀ cs : List Node,
    validateChildren cs = (match specFirstViolationList cs with
                           | none => Except.ok ()
                           | some e => Except.error e)
  | [] => rfl
  | c :: cs => by
      rw [validateChildren, specFirstViolationList, validateNode_eq_spec c]
      rcases specFirstViolation c with _ | e
      · exact validateChildren_eq_spec cs
      · rfl

end

theorem specFirstAttrViolation_none_iff (a : List GoAttr) :
    specFirstAttrViolation a = none ↔ (a.all fun at0 => at0.key == lowerStr at0.key) = true := by
  induction a with
  | nil => simp [specFirstAttrViolation]
  | cons x xs ih =>
      by_cases hx : x.key = lowerStr x.key
      · have hne : ¬(x.key ≠ lowerStr x.key) := not_not_intro hx
        have hbeq : (x.key == lowerStr x.key) = true := beq_iff_eq.mpr hx
        simp only [specFirstAttrViolation, if_neg hne, List.all_cons, hbeq, Bool.true_and]
        exact ih
      · have hbeq : (x.key == lowerStr x.key) = false := beq_eq_false_iff_ne.mpr hx
        simp only [specFirstAttrViolation, if_pos hx, List.all_cons, hbeq, Bool.false_and]
        simp

mutual

theorem specFirstViolation_none_iff : ∀ n : Node,
    specFirstViolation n = none ↔ specNodeOK n = true
  | .mk ty d a cs => by
      have hC := specFirstViolationList_none_iff cs
      rw [specFirstViolation, specNodeOK]
      by_cases hty : ty = NodeType.elementNode
      · have hpos : (ty = NodeType.elementNode) := hty
        simp only [specElemOK, if_pos hpos]
        by_cases hd : d = lowerStr d
        · have hne : ¬(d ≠ lowerStr d) := not_not_intro hd
          have hbeq : (d == lowerStr d) = true := beq_iff_eq.mpr hd
          simp only [if_neg hne, hbeq, Bool.true_and]
          rcases hvc : (isVoidElement d && !cs.isEmpty) with _ | _
          · have hor : (!isVoidElement d || cs.isEmpty) = true := by
              rcases Bool.and_eq_false_iff.mp hvc with h | h
              · simp [h]
              · simp only [Bool.not_eq_false'] at h
                simp [h]
            simp only [Bool.false_eq_true, if_false, hor, Bool.true_and]
            rcases hfa : specFirstAttrViolation a with _ | e
            · have hall := (specFirstAttrViolation_none_iff a).mp hfa
              simp only [hall, Bool.true_and]
              exact hC
            · have hall : (a.all fun at0 => at0.key == lowerStr at0.key) = false := by
                cases hb : (a.all fun at0 => at0.key == lowerStr at0.key)
                · rfl
                · exact absurd ((specFirstAttrViolation_none_iff a).mpr hb) (by simp [hfa])
              simp [hall]
          · have hvc2 : isVoidElement d = true ∧ (!cs.isEmpty) = true := by
              simpa [Bool.and_eq_true] using hvc
            obtain ⟨hvoid, hne2⟩ := hvc2
            have hie : cs.isEmpty = false := by
              simp only [Bool.not_eq_true'] at hne2
              exact hne2
            simp [hvoid, hie]
        · have hbeq : (d == lowerStr d) = false := beq_eq_false_iff_ne.mpr hd
          simp only [if_pos hd, hbeq, Bool.false_and]
          simp
      · simp only [if_neg hty, specElemOK, if_neg hty, Bool.true_and]
        exact hC

theorem specFirstViolationList_none_iff : ∀ cs : List Node,
    specFirstViolationList cs = none ↔ specChildrenOK cs = true
  | [] => by simp [specFirstViolationList, specChildrenOK]
  | c :: cs => by
      rw [specFirstViolationList, specChildrenOK]
      rcases hfc : specFirstViolation c with _ | e
      · have hc := (specFirstViolation_none_iff c).mp hfc
        simp only [hc, Bool.true_and]
        exact specFirstViolationList_none_iff cs
      · have hc : specNodeOK c = false := by
          cases hb : specNodeOK c
          · rfl
          · exact absurd ((specFirstViolation_none_iff c).mpr hb) (by simp [hfc])
        simp [hc]

end

theorem validateNode_ok_iff (n : Node) :
    (validateNode n = .ok ()) ↔ specNodeOK n = true := by
  rw [validateNode_eq_spec n]
  rcases hfv : specFirstViolation n with _ | e
  · have h2 := (specFirstViolation_none_iff n).mp hfv
    simp [h2]
  · have h2 : specNodeOK n ≠ true := fun hh =>
      Option.noConfusion (hfv ▸ (specFirstViolation_none_iff n).mpr hh)
    simp [h2]

/-- C5: the tree validator succeeds iff every element of the parsed tree
satisfies the three rules, and otherwise returns exactly the error of the
first violation in a depth-first, document-order traversal, each element
checked in the order (1) tag casing, (2) void-element children,
(3) attribute casing. -/
theorem validateNode_spec (n : Node) :
    ((validateNode n = .ok ()) ↔ specNodeOK n = true) ∧
    validateNode n = (match specFirstViolation n with
                      | none => Except.ok ()
                      | some e => Except.error e) :=
  ⟨validateNode_ok_iff n, validateNode_eq_spec n⟩


/-! ### Scanner sanity checks against the repository test inputs -/

theorem preValidate_mixed_input : (preValidate "<HTML><BODY><BR></BODY></HTML>").map (·.original) =
    ["HTML", "BODY", "BR"] := by decide

theorem preValidate_img_unquoted : (preValidate "<img src=pic.jpg width=100>").map (·.original) =
    [" src=pic.jpg", " width=100", "<img>"] := by decide

theorem preValidate_one_char_value : preValidate "<div width=5></div>" = [] := by decide

theorem preValidate_uppercase_attrs : (preValidate "<div CLASS=\"test\" ID=\"main\">content</div>").map (·.original) =
    ["CLASS", "ID"] := by decide

theorem preValidate_closed_void : (preValidate "<br />") = [] := by decide

theorem preValidate_open_void : (preValidate "<br >").map (·.original) = ["<br>"] := by decide

/-! ### ConvertWithContext vs Convert (C2)

`ConvertWithContext` never runs the pre-validation scan and, under AutoFix,
applies `fixNode` where `Convert` does not; the two agree exactly when
AutoFix is off and the strict scan gate cannot fire. -/

/-- Counterexample to full equivalence: on `<BR>` in strict mode, `Convert`
aborts at the pre-validation scan while `ConvertWithContext` (with a signal
that never triggers) returns a Result. -/
theorem cwc_differs_from_convert :
    (convert parse0 "<BR>" optsStrict).1.isOk = false ∧
    (convertWithContext ctxNever parse0 "<BR>" optsStrict 0).1.isOk = true ∧
    (convertWithContext ctxNever parse0 "<BR>" optsStrict 0).1 ≠
      (convert parse0 "<BR>" optsStrict).1 := by
  refine ⟨by decide, by decide, fun h => ?_⟩
  exact absurd (congrArg Except.isOk h) (by decide)

theorem cwcNever_eq_convertRest (ctx : Ctx) (parse : String → Node × Option GoErr)
    (input : String) (opts : Options) (dur : Nat)
    (hnever : ∀ k, ctx.done k = false) (hfix : opts.autoFix = false) :
    (convertWithContext ctx parse input opts dur).1 = (convertRest parse input opts []).1 := by
  rcases hpe : (parse input).2 with _ | e <;>
    rcases hs : opts.strictMode <;>
    rcases hv : validateNode (parse input).1 with e' | u <;>
    simp [convertWithContext, hnever 0, cwcAfterStart, hpe, hs, hnever 1, hfix,
      validateNodeWithContext, hnever 2, hv, cwcAfterVF, hnever 3,
      convertRest, convertSteps34]

/-- C2 (amended): with a never-triggered signal, `ConvertWithContext`
returns the same `(Result, error)` value as `Convert` whenever AutoFix is
off and either strict mode is off or the scan finds no defects — the
configurations in which the skipped scanning phase and the differing
fix phase cannot be observed. -/
theorem cwc_pipeline_eq_convert (ctx : Ctx) (parse : String → Node × Option GoErr)
    (input : String) (opts : Options) (dur : Nat)
    (hnever : ∀ k, ctx.done k = false) (hfix : opts.autoFix = false)
    (hgate : opts.strictMode = false ∨ preValidate input = []) :
    (convertWithContext ctx parse input opts dur).1 = (convert parse input opts).1 := by
  have hmain := cwcNever_eq_convertRest ctx parse input opts dur hnever hfix
  rcases hgate with hs | hp
  · rcases hp2 : preValidate input with _ | ⟨i, rest⟩ <;>
      simp [convert, hs, hp2, scanChanges, hfix, hmain]
  · rcases hs2 : opts.strictMode <;>
      simp [convert, hs2, hp, scanChanges, hfix, hmain]

theorem cwc_pipeline_eq_convert_witness :
    (convertWithContext ctxNever parse0 "x" optsDefault 0).1 =
      (convert parse0 "x" optsDefault).1 :=
  cwc_pipeline_eq_convert ctxNever parse0 "x" optsDefault 0
    (fun _ => rfl) rfl (Or.inl rfl)

/-! ### Metrics notifications per conversion (C3) -/

theorem countConvEvents_append (a b : List MetricEvent) :
    countConvEvents (a ++ b) = countConvEvents a + countConvEvents b := by
  simp [countConvEvents, List.filter_append]

theorem countChangeEvents_append (a b : List MetricEvent) :
    countChangeEvents (a ++ b) = countChangeEvents a + countChangeEvents b := by
  simp [countChangeEvents, List.filter_append]

theorem countConvEvents_changes (l : List Change) :
    countConvEvents (l.map fun c => MetricEvent.change c.type) = 0 := by
  induction l with
  | nil => rfl
  | cons c rest ih => simp [countConvEvents, List.filter_cons]

theorem countChangeEvents_map (l : List Change) :
    countChangeEvents (l.map fun c => MetricEvent.change c.type) = l.length := by
  induction l with
  | nil => rfl
  | cons c rest ih => simpa [countChangeEvents, List.filter_cons] using ih

/-- Counterexample: `Convert` on empty input with default options reaches
Done (a Result is produced, metrics configured) yet its metrics trace is
empty — zero successful-conversion records and zero failure records,
violating "never zero of both". -/
theorem convert_done_without_metrics :
    (convert parse0 "" optsDefault).1.isOk = true ∧
    (convert parse0 "" optsDefault).2 = [] ∧
    countConvEvents (convert parse0 "" optsDefault).2 = 0 ∧
    countErrorEvents (convert parse0 "" optsDefault).2 = 0 :=
  ⟨by decide, by decide, by decide, by decide⟩

theorem countConvEvents_nil : countConvEvents [] = 0 := rfl

theorem countChangeEvents_nil : countChangeEvents [] = 0 := rfl

theorem countConvEvents_cons_error (c : ErrorCode) (t : List MetricEvent) :
    countConvEvents (.error c :: t) = countConvEvents t := by
  simp [countConvEvents, List.filter_cons]

theorem countConvEvents_cons_conversion (d i o : Nat) (t : List MetricEvent) :
    countConvEvents (.conversion d i o :: t) = countConvEvents t + 1 := by
  simp [countConvEvents, List.filter_cons, Nat.add_comm]

theorem countConvEvents_cons_change (ty : ChangeType) (t : List MetricEvent) :
    countConvEvents (.change ty :: t) = countConvEvents t := by
  simp [countConvEvents, List.filter_cons]

theorem countChangeEvents_cons_error (c : ErrorCode) (t : List MetricEvent) :
    countChangeEvents (.error c :: t) = countChangeEvents t := by
  simp [countChangeEvents, List.filter_cons]

theorem countChangeEvents_cons_conversion (d i o : Nat) (t : List MetricEvent) :
    countChangeEvents (.conversion d i o :: t) = countChangeEvents t := by
  simp [countChangeEvents, List.filter_cons]

theorem countChangeEvents_cons_change (ty : ChangeType) (t : List MetricEvent) :
    countChangeEvents (.change ty :: t) = countChangeEvents t + 1 := by
  simp [countChangeEvents, List.filter_cons, Nat.add_comm]

theorem cwcAfterVF_counts (ctx : Ctx) (doc : Node) (input : String) (opts : Options)
    (dur : Nat) (changes : List Change) (errors0 : List GoErr) (trace0 : List MetricEvent)
    (hc0 : countConvEvents trace0 = 0) (hch0 : countChangeEvents trace0 = 0) :
    countConvEvents (cwcAfterVF ctx doc input opts dur changes errors0 trace0).2 =
      (match (cwcAfterVF ctx doc input opts dur changes errors0 trace0).1 with
       | .ok _ => 1
       | .error _ => 0) ∧
    (∀ r, (cwcAfterVF ctx doc input opts dur changes errors0 trace0).1 = .ok r →
      countChangeEvents (cwcAfterVF ctx doc input opts dur changes errors0 trace0).2 =
        r.changes.length) := by
  rcases h3 : ctx.done 3 <;>
    simp [cwcAfterVF, h3, countConvEvents_append, countChangeEvents_append,
      countConvEvents_changes, countChangeEvents_map, hc0, hch0,
      countConvEvents_nil, countChangeEvents_nil,
      countConvEvents_cons_error, countConvEvents_cons_conversion, countConvEvents_cons_change,
      countChangeEvents_cons_error, countChangeEvents_cons_conversion, countChangeEvents_cons_change]

theorem cwc_trace_counts (ctx : Ctx) (parse : String → Node × Option GoErr)
    (input : String) (opts : Options) (dur : Nat) :
    countConvEvents (convertWithContext ctx parse input opts dur).2 =
      (match (convertWithContext ctx parse input opts dur).1 with
       | .ok _ => 1
       | .error _ => 0) ∧
    (∀ r, (convertWithContext ctx parse input opts dur).1 = .ok r →
      countChangeEvents (convertWithContext ctx parse input opts dur).2 = r.changes.length) := by
  rcases h0 : ctx.done 0
  case true => simp [convertWithContext, h0, countConvEvents, countChangeEvents]
  case false =>
    rcases hpe : (parse input).2 with _ | e <;>
      rcases hs : opts.strictMode <;>
      rcases h1 : ctx.done 1 <;>
      rcases ha : opts.autoFix <;>
      rcases h2 : ctx.done 2 <;>
      rcases hv : validateNode (parse input).1 with e' | u <;>
      simp only [convertWithContext, h0, Bool.false_eq_true, if_false, cwcAfterStart,
        hpe, hs, h1, ha, h2, hv, validateNodeWithContext, fixNodeWithContext] <;>
      first
      | exact cwcAfterVF_counts _ _ _ _ _ _ _ _ rfl rfl
      | simp [countConvEvents, countChangeEvents]

theorem convert_trace_no_conversion (parse : String → Node × Option GoErr)
    (input : String) (opts : Options) :
    countConvEvents (convert parse input opts).2 = 0 := by
  rcases hs : opts.strictMode <;> rcases hp : preValidate input with _ | ⟨i, rest⟩ <;>
    rcases hpe : (parse input).2 with _ | e <;>
    rcases hv : validateNode (parse input).1 with e' | u <;>
    rcases ha : opts.autoFix <;>
    simp [convert, convertRest, convertSteps34, hs, hp, hpe, hv, ha, scanChanges,
      countConvEvents_append, countConvEvents_changes, countConvEvents]

/-- C3 (amended): `ConvertWithContext` records exactly one
successful-conversion event iff it returns a Result, plus exactly one
change-notification per Change of that Result, and no
successful-conversion event when it returns an error; `Convert` never
records a successful-conversion event at all. -/
theorem metrics_once_amended (ctx : Ctx) (parse : String → Node × Option GoErr)
    (input : String) (opts : Options) (dur : Nat) :
    (∀ r, (convertWithContext ctx parse input opts dur).1 = .ok r →
      countConvEvents (convertWithContext ctx parse input opts dur).2 = 1 ∧
      countChangeEvents (convertWithContext ctx parse input opts dur).2 = r.changes.length) ∧
    (∀ e, (convertWithContext ctx parse input opts dur).1 = .error e →
      countConvEvents (convertWithContext ctx parse input opts dur).2 = 0) ∧
    countConvEvents (convert parse input opts).2 = 0 := by
  obtain ⟨hcount, hchange⟩ := cwc_trace_counts ctx parse input opts dur
  refine ⟨fun r h => ⟨?_, hchange r h⟩, fun e h => ?_,
    convert_trace_no_conversion parse input opts⟩
  · rw [h] at hcount
    exact hcount
  · rw [h] at hcount
    exact hcount

theorem metrics_once_amended_witness :
    countConvEvents (convertWithContext ctxNever parse0 "" optsDefault 5).2 = 1 ∧
    countChangeEvents (convertWithContext ctxNever parse0 "" optsDefault 5).2 =
      (⟨true, "", 0, 0, [], [], []⟩ : Result).changes.length ∧
    countConvEvents (convert parse0 "" optsDefault).2 = 0 := by
  have h := metrics_once_amended ctxNever parse0 "" optsDefault 5
  exact ⟨(h.1 ⟨true, "", 0, 0, [], [], []⟩ rfl).1,
         (h.1 ⟨true, "", 0, 0, [], [], []⟩ rfl).2, h.2.2⟩

/-! ### Cancellation checkpoints (C7) -/

/-- Counterexample: a time-based (deadline) signal observed at the first
checkpoint is reported with error kind canceled, never timeout. -/
theorem cwc_timeout_reported_as_canceled :
    (convertWithContext ctxDeadlineAll parse0 "" optsDefault 0).1 =
      .error (.structured .contextCanceled "context canceled"
        (.plain "context deadline exceeded")) ∧
    ErrorCode.contextCanceled ≠ ErrorCode.timeout :=
  ⟨by decide, by decide⟩

/-- C7 (amended): `ConvertWithContext` polls the signal at three checkpoint
selects — entry, after parsing, after the validate/fix phase (there is no
scan phase and no fourth select before returning).  Cancellation observed
at any of them returns a structured error of kind canceled (whatever the
signal's cause), records a canceled failure as the last metrics event, and
produces no Result (no successful-conversion event). -/
theorem cwc_cancellation_checkpoints (ctx : Ctx) (parse : String → Node × Option GoErr)
    (input : String) (opts : Options) (dur : Nat) :
    (ctx.done 0 = true →
      convertWithContext ctx parse input opts dur =
        (.error (NewError .contextCanceled "context canceled" (ctxErr ctx)),
          [.error .contextCanceled])) ∧
    (ctx.done 0 = false → ctx.done 1 = true →
      ((parse input).2 = none ∨ opts.strictMode = false) →
      (convertWithContext ctx parse input opts dur).1 =
        .error (NewError .contextCanceled "context canceled after parsing" (ctxErr ctx)) ∧
      countConvEvents (convertWithContext ctx parse input opts dur).2 = 0 ∧
      (convertWithContext ctx parse input opts dur).2.getLast? =
        some (.error .contextCanceled)) ∧
    (ctx.done 0 = false → ctx.done 1 = false → ctx.done 2 = false → ctx.done 3 = true →
      ((parse input).2 = none ∨ opts.strictMode = false) →
      (opts.autoFix = true ∨ opts.strictMode = false ∨
        validateNode (parse input).1 = .ok ()) →
      (convertWithContext ctx parse input opts dur).1 =
        .error (NewError .contextCanceled "context canceled after validation" (ctxErr ctx)) ∧
      countConvEvents (convertWithContext ctx parse input opts dur).2 = 0 ∧
      (convertWithContext ctx parse input opts dur).2.getLast? =
        some (.error .contextCanceled)) := by
  refine ⟨fun h0 => by simp [convertWithContext, h0], ?_, ?_⟩
  · intro h0 h1 hp
    rcases hp with hp | hp
    · simp [convertWithContext, h0, cwcAfterStart, hp, h1, countConvEvents]
    · rcases hpe : (parse input).2 with _ | e <;>
        simp [convertWithContext, h0, cwcAfterStart, hpe, hp, h1, countConvEvents]
  · intro h0 h1 h2 h3 hp hvf
    rcases hp with hp | hp <;> rcases hvf with hf | hf | hf <;>
      rcases ha : opts.autoFix <;> rcases hs : opts.strictMode <;>
      rcases hpe : (parse input).2 with _ | e <;>
      rcases hv : validateNode (parse input).1 with e' | u <;>
      simp_all [convertWithContext, cwcAfterStart, cwcAfterVF, validateNodeWithContext,
        fixNodeWithContext, countConvEvents]

theorem cwc_cancellation_checkpoints_witness :
    convertWithContext (ctxAt 0) parse0 "" optsDefault 0 =
      (.error (NewError .contextCanceled "context canceled" (ctxErr (ctxAt 0))),
        [.error .contextCanceled]) ∧
    (convertWithContext (ctxAt 1) parse0 "" optsDefault 0).1 =
      .error (NewError .contextCanceled "context canceled after parsing" (ctxErr (ctxAt 1))) ∧
    (convertWithContext (ctxAt 3) parse0 "" optsDefault 0).1 =
      .error (NewError .contextCanceled "context canceled after validation"
        (ctxErr (ctxAt 3))) := by
  refine ⟨(cwc_cancellation_checkpoints (ctxAt 0) parse0 "" optsDefault 0).1 (by decide),
    ((cwc_cancellation_checkpoints (ctxAt 1) parse0 "" optsDefault 0).2.1
      (by decide) (by decide) (Or.inl rfl)).1,
    ((cwc_cancellation_checkpoints (ctxAt 3) parse0 "" optsDefault 0).2.2
      (by decide) (by decide) (by decide) (by decide) (Or.inl rfl)
      (Or.inr (Or.inr (by decide)))).1⟩

end SHP
